import Mathlib

/-!
# Verification of `chord_trainer/audio.py`

Shallow embedding of the audio engine of the `practice-chords` repository:
frequency model (`get_note_freq`), Karplus-Strong string synthesis
(`generate_pluck`), chord mixing (`play_chord`), and the metronome
(`Metronome`, `Metronome._run`).

Python floats are idealised as real numbers; `int(x)` is truncation toward
zero (`pyInt`); the numpy random noise burst is an explicit `noise` parameter;
exceptions (`ZeroDivisionError`, `ValueError`) are an explicit `Except`
error channel; returning Python `None` is `Option.none`.
-/

/-- Python exceptions that the audio code can raise. -/
inductive PyError
  | zeroDivisionError
  | valueError
deriving DecidableEq

/-- Python `int(x)` applied to a float: truncation toward zero. -/
noncomputable def pyInt (x : ℝ) : ℤ :=
  if 0 ≤ x then ⌊x⌋ else ⌈x⌉

/-- Python 3 `round(x)`: round half to even. -/
noncomputable def pyRound (x : ℝ) : ℤ :=
  if Int.fract x = 1 / 2 then
    (if 2 ∣ ⌊x⌋ then ⌊x⌋ else ⌊x⌋ + 1)
  else round x

/-- The six guitar strings, low `E` to high `e` (keys of `STRING_FREQS`). -/
inductive GString
  | E
  | A
  | D
  | G
  | B
  | e
deriving DecidableEq

/-- Table `STRING_FREQS`: open-string frequencies in Hz (audio.py lines 20-27). -/
def STRING_FREQS : GString → ℝ
  | .E => 82.41
  | .A => 110.00
  | .D => 146.83
  | .G => 196.00
  | .B => 246.94
  | .e => 329.63

/-- The source constant `FRET_R = 2 ** (1/12)` (audio.py line 30);
named `FRET_R` here. -/
noncomputable def FRET_R : ℝ := (2 : ℝ) ^ ((1 : ℝ) / 12)

/-- Function `get_note_freq(string, fret) = STRING_FREQS[string] * FRET_R ** fret`
(audio.py lines 33-36). -/
noncomputable def get_note_freq (s : GString) (fret : ℤ) : ℝ :=
  STRING_FREQS s * FRET_R ^ fret

/-- The state of a `Metronome` instance (audio.py lines 125-171).
The thread handle and the beat callback are modelled opaquely: the claims
about them only concern presence and identity, never their contents. -/
structure Metronome where
  bpm : ℤ
  running : Bool
  thread : Option Unit
  beat_callback : Option Unit
deriving DecidableEq

/-- Constructor `Metronome.__init__(bpm)` (audio.py lines 128-132): stores `bpm` as
given, not running, no thread, no callback. -/
def Metronome.init (bpm : ℤ) : Metronome :=
  ⟨bpm, false, none, none⟩

/-- Method `Metronome.set_bpm(bpm)` (audio.py lines 151-153):
`self.bpm = max(40, min(200, bpm))`; no other field is assigned. -/
def Metronome.set_bpm (m : Metronome) (bpm : ℤ) : Metronome :=
  ⟨max 40 (min 200 bpm), m.running, m.thread, m.beat_callback⟩

/-- Click frequency chosen by `Metronome._run` (audio.py line 160):
`1200 if beat == 0 else 800`. -/
def clickFreq (beat : ℕ) : ℕ :=
  if beat = 0 then 1200 else 800

/-- Trace of the loop of `Metronome._run` (audio.py lines 155-167) for a given
number of iterations, starting from beat value `beat`.  Each iteration
emits one event `(beat, clickFreq beat)` — one click and one invocation of
the beat callback (when supplied) — then advances `beat = (beat + 1) % 4`. -/
def metroTrace (beat : ℕ) : ℕ → List (ℕ × ℕ)
  | 0 => []
  | n + 1 => (beat, clickFreq beat) :: metroTrace ((beat + 1) % 4) n

/-- The loop of `Metronome._run` starts with `beat = 0` (audio.py line 157). -/
def metroEvents (n : ℕ) : List (ℕ × ℕ) :=
  metroTrace 0 n

theorem metroTrace_length (b n : ℕ) : (metroTrace b n).length = n := by
  induction n generalizing b with
  | zero => rfl
  | succ n ih => simp [metroTrace, ih]

theorem metroTrace_getD (n : ℕ) : ∀ b k : ℕ, k < n → b < 4 →
    (metroTrace b n).getD k (0, 0) = ((b + k) % 4, clickFreq ((b + k) % 4)) := by
  induction n with
  | zero => intro b k hk _; omega
  | succ n ih =>
    intro b k hk hb
    cases k with
    | zero =>
      simp [metroTrace, Nat.mod_eq_of_lt hb]
    | succ k =>
      have hk' : k < n := by omega
      have hb' : (b + 1) % 4 < 4 := Nat.mod_lt _ (by omega)
      have := ih ((b + 1) % 4) k hk' hb'
      simp only [metroTrace, List.getD_cons_succ, this, Nat.mod_add_mod]
      congr 2 <;> omega

/-- Claim C3 counterexample: the constructor does not clamp.
`Metronome(500)` stores bpm `500`, outside `[40, 200]`, so the invariant
does not hold "immediately after construction with any bpm argument". -/
theorem metronome_init_unclamped :
    ¬ (40 ≤ (Metronome.init 500).bpm ∧ (Metronome.init 500).bpm ≤ 200) := by
  simp [Metronome.init]

/-- Claim C3 (amended): `set_bpm` always stores a value in `[40, 200]`;
in particular `set_bpm(10)` stores `40` and `set_bpm(500)` stores `200`.
(The constructor itself stores its argument unclamped.) -/
theorem set_bpm_clamps (m : Metronome) (b : ℤ) :
    (40 ≤ (m.set_bpm b).bpm ∧ (m.set_bpm b).bpm ≤ 200) ∧
    (m.set_bpm 10).bpm = 40 ∧ (m.set_bpm 500).bpm = 200 := by
  have h : 40 ≤ max 40 (min 200 b) ∧ max 40 (min 200 b) ≤ 200 := by omega
  exact ⟨h, by simp [Metronome.set_bpm], by simp [Metronome.set_bpm]⟩

/-- Claim C10: `set_bpm` mutates only the stored bpm: the running flag,
thread handle and beat-callback reference are unchanged (so it neither
starts nor stops the background loop), and it is a total function (never
raises), storing the clamped bpm. -/
theorem set_bpm_frame (m : Metronome) (b : ℤ) :
    (m.set_bpm b).running = m.running ∧
    (m.set_bpm b).thread = m.thread ∧
    (m.set_bpm b).beat_callback = m.beat_callback ∧
    (m.set_bpm b).bpm = max 40 (min 200 b) :=
  ⟨rfl, rfl, rfl, rfl⟩

/-- Claim C8: over any number of loop iterations while running, iteration
`k` (0-based) carries beat index `k % 4` — beats cycle 0,1,2,3,0,… — with
click frequency 1200 exactly when the beat index is 0 and 800 otherwise;
one event (click + callback invocation) is emitted per iteration, so the
`k`-th callback invocation corresponds to beat `k % 4`. -/
theorem metronome_beat_cycle (n k : ℕ) (h : k < n) :
    (metroEvents n).length = n ∧
    (metroEvents n).getD k (0, 0) = (k % 4, if k % 4 = 0 then 1200 else 800) := by
  constructor
  · exact metroTrace_length 0 n
  · have := metroTrace_getD n 0 k h (by omega)
    simpa [metroEvents, clickFreq] using this

/-- Witness for C8 at `n = 6`, `k = 5`. -/
theorem metronome_beat_cycle_witness :
    5 < 6 ∧
    ((metroEvents 6).length = 6 ∧
      (metroEvents 6).getD 5 (0, 0) = (5 % 4, if 5 % 4 = 0 then 1200 else 800)) :=
  ⟨by decide, metronome_beat_cycle 6 5 (by decide)⟩

/-- The Karplus-Strong loop of `generate_pluck` (audio.py lines 54-58), as a
recursion over the remaining number of output samples.  At step `i`:
emit `buffer[i % period]`, then assign
`buffer[i % period] = 0.996 * 0.5 * (buffer[i % period] + buffer[(i+1) % period])`.
The emitted samples are collected in `acc` (reversed at the end). -/
def ksAux (p : ℕ) : ℕ → ℕ → List ℝ → List ℝ → List ℝ
  | 0, _, _, acc => acc.reverse
  | n + 1, i, buf, acc =>
      let j := i % p
      let cur := buf.getD j 0
      let nxt := buf.getD ((i + 1) % p) 0
      ksAux p n (i + 1) (buf.set j (0.996 * 0.5 * (cur + nxt))) (cur :: acc)

/-- Numpy `np.linspace(0, 1, n)` at index `i`: `i / (n - 1)` for `n ≥ 2`,
`0` for `n ≤ 1`. -/
noncomputable def linspace01 (n i : ℕ) : ℝ :=
  if n ≤ 1 then 0 else (i : ℝ) / ((n : ℝ) - 1)

/-- The envelope application `output *= np.exp(-3 * np.linspace(0, 1, n))`
(audio.py lines 61-62). -/
noncomputable def applyEnvelope (out : List ℝ) : List ℝ :=
  List.zipWith (fun i x => x * Real.exp (-3 * linspace01 out.length i))
    (List.range out.length) out

/-- The synthesis body of `generate_pluck` (audio.py lines 44-64), reached
when `AUDIO_AVAILABLE` is true.  `noise` supplies the
`np.random.uniform(-1, 1, period)` noise burst.  Faithful error behaviour:
* `freq == 0` → `ZeroDivisionError` at `sample_rate / freq`;
* `period < 0` → `ValueError` from `np.random.uniform` (negative size);
* `n_samples < 0` → `ValueError` from `np.zeros` (negative size);
* `period == 0` with `n_samples > 0` → `ZeroDivisionError` at
  `buffer[i % period]` in the first loop iteration.
There is no minimum clamp on `period`. -/
noncomputable def pluck_math (noise : ℕ → ℝ) (freq duration sample_rate : ℝ) :
    Except PyError (List ℝ) :=
  if freq = 0 then .error .zeroDivisionError
  else if pyInt (sample_rate / freq) < 0 then .error .valueError
  else if pyInt (duration * sample_rate) < 0 then .error .valueError
  else if pyInt (sample_rate / freq) = 0 ∧ 0 < pyInt (duration * sample_rate) then
    .error .zeroDivisionError
  else
    .ok (applyEnvelope
      (ksAux (pyInt (sample_rate / freq)).toNat (pyInt (duration * sample_rate)).toNat 0
        ((List.range (pyInt (sample_rate / freq)).toNat).map noise) []))

/-- Function `generate_pluck(freq, duration, sample_rate)` (audio.py lines 39-64),
including the `AUDIO_AVAILABLE` guard (lines 41-42): when the capability
flag is false the function returns Python `None` immediately, performing no
synthesis. -/
noncomputable def generate_pluck (avail : Bool) (noise : ℕ → ℝ)
    (freq duration sample_rate : ℝ) : Except PyError (Option (List ℝ)) :=
  match avail with
  | false => .ok none
  | true => (pluck_math noise freq duration sample_rate).map some

/-- Whether a call outcome is a successfully returned waveform buffer. -/
def isBuffer : Except PyError (Option (List ℝ)) → Bool
  | .ok (some _) => true
  | _ => false

/-- The all-zero noise source (one valid instance of the uniform noise). -/
def zNoise : ℕ → ℝ := fun _ => 0

theorem ksAux_length (p : ℕ) :
    ∀ (n i : ℕ) (buf acc : List ℝ), (ksAux p n i buf acc).length = n + acc.length := by
  intro n
  induction n with
  | zero => intro i buf acc; simp [ksAux]
  | succ n ih =>
    intro i buf acc
    simp only [ksAux, ih]
    simp
    omega

theorem applyEnvelope_length (out : List ℝ) : (applyEnvelope out).length = out.length := by
  simp [applyEnvelope]

theorem pyInt_of_nonneg {x : ℝ} (hx : 0 ≤ x) : pyInt x = ⌊x⌋ :=
  if_pos hx

theorem pyInt_eq {x : ℝ} {z : ℤ} (h0 : 0 ≤ x) (h1 : (z : ℝ) ≤ x) (h2 : x < z + 1) :
    pyInt x = z := by
  rw [pyInt_of_nonneg h0, Int.floor_eq_iff]
  exact ⟨h1, h2⟩

/-- With a positive frequency not exceeding the sample rate and a nonnegative
duration, `pluck_math` takes its success branch. -/
theorem pluck_math_eq_of (noise : ℕ → ℝ) {f d r : ℝ}
    (hf : 0 < f) (hfr : f ≤ r) (hd : 0 ≤ d) :
    pluck_math noise f d r =
      .ok (applyEnvelope
        (ksAux (pyInt (r / f)).toNat (pyInt (d * r)).toNat 0
          ((List.range (pyInt (r / f)).toNat).map noise) [])) := by
  have hr : 0 < r := lt_of_lt_of_le hf hfr
  have hrf : 1 ≤ r / f := (one_le_div hf).mpr hfr
  have hper : 1 ≤ pyInt (r / f) := by
    rw [pyInt_of_nonneg (by linarith)]
    exact_mod_cast Int.le_floor.mpr (by exact_mod_cast hrf)
  have hn : 0 ≤ pyInt (d * r) := by
    rw [pyInt_of_nonneg (mul_nonneg hd hr.le)]
    exact Int.floor_nonneg.mpr (mul_nonneg hd hr.le)
  rw [pluck_math, if_neg hf.ne', if_neg (by omega), if_neg (by omega), if_neg (by omega)]

/-- Success and length of `pluck_math` under the same conditions:
the returned buffer has exactly `int(duration * sample_rate)` samples. -/
theorem pluck_math_length (noise : ℕ → ℝ) {f d r : ℝ}
    (hf : 0 < f) (hfr : f ≤ r) (hd : 0 ≤ d) :
    ∃ w, pluck_math noise f d r = .ok w ∧ w.length = (pyInt (d * r)).toNat := by
  refine ⟨_, pluck_math_eq_of noise hf hfr hd, ?_⟩
  rw [applyEnvelope_length, ksAux_length]
  simp

theorem getD_replicate_zero (n j : ℕ) : (List.replicate n (0 : ℝ)).getD j 0 = 0 := by
  induction n generalizing j with
  | zero => simp [List.getD]
  | succ n ih =>
    cases j with
    | zero => simp
    | succ j => simp

theorem set_replicate_zero (n j : ℕ) :
    (List.replicate n (0 : ℝ)).set j 0 = List.replicate n 0 := by
  induction n generalizing j with
  | zero => rfl
  | succ n ih =>
    cases j with
    | zero => simp [List.replicate_succ]
    | succ j => simp [List.replicate_succ, ih]

/-- The Karplus-Strong loop maps an all-zero delay line to an all-zero output. -/
theorem ksAux_zero (p : ℕ) : ∀ (n i : ℕ) (acc : List ℝ),
    ksAux p n i (List.replicate p 0) acc = acc.reverse ++ List.replicate n 0 := by
  intro n
  induction n with
  | zero => intro i acc; simp [ksAux]
  | succ n ih =>
    intro i acc
    rw [ksAux]
    simp only [getD_replicate_zero]
    rw [show (0.996 * 0.5 * ((0 : ℝ) + 0)) = 0 by norm_num, set_replicate_zero, ih]
    simp [List.replicate_succ]

/-- The envelope maps an all-zero buffer to an all-zero buffer. -/
theorem applyEnvelope_replicate_zero (n : ℕ) :
    applyEnvelope (List.replicate n (0 : ℝ)) = List.replicate n 0 := by
  apply List.ext_getElem
  · simp [applyEnvelope]
  · intro i h1 h2
    simp [applyEnvelope]

/-- With the all-zero noise source, a successful pluck is an all-zero buffer
of `int(duration * sample_rate)` samples. -/
theorem pluck_math_zNoise {f d r : ℝ} (hf : 0 < f) (hfr : f ≤ r) (hd : 0 ≤ d) :
    pluck_math zNoise f d r = .ok (List.replicate (pyInt (d * r)).toNat 0) := by
  rw [pluck_math_eq_of zNoise hf hfr hd]
  have hmap : (List.range (pyInt (r / f)).toNat).map zNoise =
      List.replicate (pyInt (r / f)).toNat (0 : ℝ) := by
    unfold zNoise
    simp
  rw [hmap, ksAux_zero, List.reverse_nil, List.nil_append, applyEnvelope_replicate_zero]

/-- The list `strings` of the six string names, low E to high e (audio.py line 72). -/
def pyStrings : List GString := [.E, .A, .D, .G, .B, .e]

/-- The per-string loop of `play_chord` (audio.py lines 77-87) over the
`zip(strings, frets)` pairs, carrying the `enumerate` index `i`.  For a
muted string (`fret is None`) no voice is produced.  Otherwise the voice is
`generate_pluck(get_note_freq(string, fret), 2.0, 44100)` prepended with
`int(i * strum_delay * 44100)` zeros
(`padded = np.zeros(len(wave) + delay_samples); padded[delay_samples:] = wave`).
A negative `delay_samples` makes that numpy construction raise `ValueError`.
`noises i` is the noise source consumed by the pluck of string index `i`. -/
noncomputable def buildVoicesAux (noises : ℕ → ℕ → ℝ) (strum_delay : ℝ) :
    List (GString × Option ℤ) → ℕ → Except PyError (List (List ℝ))
  | [], _ => .ok []
  | (_, none) :: rest, i => buildVoicesAux noises strum_delay rest (i + 1)
  | (s, some fret) :: rest, i =>
      match pluck_math (noises i) (get_note_freq s fret) 2 44100 with
      | .error err => .error err
      | .ok wave =>
          if pyInt ((i : ℝ) * strum_delay * 44100) < 0 then .error .valueError
          else
            match buildVoicesAux noises strum_delay rest (i + 1) with
            | .error err => .error err
            | .ok others =>
                .ok ((List.replicate (pyInt ((i : ℝ) * strum_delay * 44100)).toNat 0
                  ++ wave) :: others)

/-- Pad a voice on the right with zeros up to length `n`
(`mixed[:len(s)] += s` touches only the first `len s` slots). -/
def padTo (n : ℕ) (l : List ℝ) : List ℝ :=
  l ++ List.replicate (n - l.length) 0

/-- Computes `max_len = max(len(s) for s in samples)` (audio.py line 93). -/
def maxLen (samples : List (List ℝ)) : ℕ :=
  (samples.map List.length).foldr max 0

/-- The mixing loop (audio.py lines 94-96): start from `np.zeros(max_len)`
and add each voice sample-wise over its own length. -/
def mixVoices (samples : List (List ℝ)) (n : ℕ) : List ℝ :=
  samples.foldl (fun acc s => List.zipWith (· + ·) acc (padTo n s)) (List.replicate n 0)

/-- Computes `np.max(np.abs(mixed))` (audio.py line 99), for a buffer whose entries
all have nonnegative absolute value. -/
def maxAbs (l : List ℝ) : ℝ :=
  l.foldr (fun x m => max |x| m) 0

/-- Function `play_chord(frets, strum_delay=0.03)` (audio.py lines 67-105).
Returns `.ok none` when nothing is submitted to the playback sink (audio
unavailable, or every string muted), `.ok (some buffer)` when the
normalized mixed buffer is submitted via `sd.play`, and `.error` when the
synthesis raises.  Normalization (line 99):
`mixed = mixed / (np.max(np.abs(mixed)) + 0.001) * 0.7`. -/
noncomputable def play_chord (avail : Bool) (noises : ℕ → ℕ → ℝ)
    (frets : List (Option ℤ)) (strum_delay : ℝ) : Except PyError (Option (List ℝ)) :=
  match avail with
  | false => .ok none
  | true =>
      match buildVoicesAux noises strum_delay (pyStrings.zip frets) 0 with
      | .error err => .error err
      | .ok samples =>
          if samples.isEmpty then .ok none
          else
            let mixed := mixVoices samples (maxLen samples)
            .ok (some (mixed.map (fun x => x / (maxAbs mixed + 0.001) * 0.7)))

/-- The all-zero noise family for the per-string plucks in `play_chord`. -/
def zNoises : ℕ → ℕ → ℝ := fun _ _ => 0

/-- Claim C1 counterexample: with the capability flag false,
`generate_pluck(98.0, 2.0, 44100)` does not return a waveform buffer — it
returns Python `None` — even though the frequency is positive. -/
theorem pluck_unavailable_not_buffer :
    isBuffer (generate_pluck false zNoise 98 2 44100) = false := rfl

/-- Claim C1 (amended): when no audio backend is available
(`AUDIO_AVAILABLE = False`), `generate_pluck` skips its computation
entirely and returns the `None` sentinel instead of a waveform buffer, and
`play_chord` returns with no playback submission; neither raises. -/
theorem audio_unavailable_noop (noise : ℕ → ℝ) (noises : ℕ → ℕ → ℝ)
    (f d r sd : ℝ) (frets : List (Option ℤ)) :
    generate_pluck false noise f d r = .ok none ∧
    play_chord false noises frets sd = .ok none :=
  ⟨rfl, rfl⟩

/-- Claim C7: `play_chord` with all six frets muted is a no-op — the voice
list stays empty, no buffer is mixed, and nothing is submitted to the
playback sink — whether or not audio is available. -/
theorem play_chord_all_muted_noop (avail : Bool) (noises : ℕ → ℕ → ℝ) (sd : ℝ) :
    play_chord avail noises [none, none, none, none, none, none] sd = .ok none := by
  cases avail <;> rfl

theorem pluck_math_zero_freq (noise : ℕ → ℝ) (d r : ℝ) :
    pluck_math noise 0 d r = .error .zeroDivisionError := by
  unfold pluck_math
  rw [if_pos rfl]

/-- A nonpositive period makes `pluck_math` raise (negative → `ValueError`
from `np.random.uniform`; zero with at least one sample → `ZeroDivisionError`
from `i % period`). -/
theorem pluck_math_error_cases (noise : ℕ → ℝ) {f d r : ℝ} (hf : f ≠ 0)
    (hper : pyInt (r / f) ≤ 0) (hn : 1 ≤ pyInt (d * r)) :
    ∃ err, pluck_math noise f d r = .error err := by
  unfold pluck_math
  rw [if_neg hf]
  rcases hper.lt_or_eq with h | h
  · rw [if_pos h]
    exact ⟨_, rfl⟩
  · rw [if_neg (by omega), if_neg (by omega), if_pos ⟨h, by omega⟩]
    exact ⟨_, rfl⟩

/-- Claim C5 counterexample: a frequency greater than the sample rate makes
`generate_pluck` raise `ZeroDivisionError`: `period = int(44100 / 88200) = 0`
(there is no minimum-1 clamp) and the loop index expression `i % period` divides by zero.
The claim said every positive frequency succeeds. -/
theorem pluck_high_freq_error :
    generate_pluck true zNoise 88200 (3 / 2) 44100 = .error .zeroDivisionError := by
  have hp : pyInt ((44100 : ℝ) / 88200) = 0 := pyInt_eq (by norm_num) (by norm_num) (by norm_num)
  have hn : pyInt ((3 / 2 : ℝ) * 44100) = 66150 :=
    pyInt_eq (by norm_num) (by norm_num) (by norm_num)
  rw [show generate_pluck true zNoise 88200 (3 / 2) 44100 =
      (pluck_math zNoise 88200 (3 / 2) 44100).map some from rfl]
  unfold pluck_math
  rw [if_neg (by norm_num : ¬ (88200 : ℝ) = 0), hp, hn]
  norm_num [Except.map]

/-- Claim C5 (amended): with a positive sample rate and a duration worth at
least one sample, `pluck` succeeds if and only if `0 < frequency ≤ sample_rate`.
Non-positive frequencies fail as claimed, but frequencies above the sample
rate also fail, because `period = int(sample_rate / frequency)` is computed
with no minimum-1 clamp and truncates to zero. -/
theorem pluck_ok_iff (noise : ℕ → ℝ) (f d r : ℝ) (hr : 0 < r) (hdr : 1 ≤ d * r) :
    (∃ w, pluck_math noise f d r = .ok w) ↔ (0 < f ∧ f ≤ r) := by
  have hdr0 : (0 : ℝ) ≤ d * r := le_trans zero_le_one hdr
  have hn : 1 ≤ pyInt (d * r) := by
    rw [pyInt_of_nonneg hdr0]
    exact_mod_cast Int.le_floor.mpr (by exact_mod_cast hdr)
  constructor
  · rintro ⟨w, hw⟩
    by_contra hcon
    rw [not_and_or, not_lt, not_le] at hcon
    rcases hcon with hf0 | hrf
    · rcases hf0.lt_or_eq with hfneg | hfzero
      · have hdiv : r / f < 0 := div_neg_of_pos_of_neg hr hfneg
        have hper : pyInt (r / f) ≤ 0 := by
          rw [pyInt, if_neg (not_le.mpr hdiv)]
          exact Int.ceil_le.mpr (by exact_mod_cast hdiv.le)
        obtain ⟨err, herr⟩ := pluck_math_error_cases noise hfneg.ne hper hn
        rw [herr] at hw
        exact Except.noConfusion hw
      · rw [hfzero, pluck_math_zero_freq] at hw
        exact Except.noConfusion hw
    · have hfpos : 0 < f := lt_trans hr hrf
      have hdiv0 : 0 ≤ r / f := div_nonneg hr.le hfpos.le
      have hdiv1 : r / f < 1 := (div_lt_one hfpos).mpr hrf
      have hper : pyInt (r / f) ≤ 0 := by
        rw [pyInt_of_nonneg hdiv0]
        exact le_of_eq (Int.floor_eq_zero_iff.mpr ⟨hdiv0, hdiv1⟩)
      obtain ⟨err, herr⟩ := pluck_math_error_cases noise hfpos.ne' hper hn
      rw [herr] at hw
      exact Except.noConfusion hw
  · rintro ⟨hf, hfr⟩
    have hd : 0 ≤ d := by nlinarith
    obtain ⟨w, hw, _⟩ := pluck_math_length noise hf hfr hd
    exact ⟨w, hw⟩

/-- Witness for C5 (amended) at `f = 98`, `d = 2`, `r = 44100`. -/
theorem pluck_ok_iff_witness :
    (0 : ℝ) < 44100 ∧ (1 : ℝ) ≤ 2 * 44100 ∧
    ((∃ w, pluck_math zNoise 98 2 44100 = .ok w) ↔ ((0 : ℝ) < 98 ∧ (98 : ℝ) ≤ 44100)) :=
  ⟨by norm_num, by norm_num, pluck_ok_iff zNoise 98 2 44100 (by norm_num) (by norm_num)⟩

/-- Claim C4 counterexample: at `frequency = 441`, `duration = 0.00009`,
`sample_rate = 44100` (so `duration * sample_rate = 3.969`), the returned
buffer has `int(3.969) = 3` samples, while `round(3.969) = 4`: the length
is the truncation, not the rounding, of `duration * sample_rate`. -/
theorem pluck_length_ne_round :
    (generate_pluck true zNoise 441 (9 / 100000) 44100).map (Option.map List.length) =
      .ok (some 3) ∧
    pyRound ((9 / 100000 : ℝ) * 44100) = 4 := by
  constructor
  · have h := @pluck_math_zNoise 441 (9 / 100000) 44100
      (by norm_num) (by norm_num) (by norm_num)
    have hp : pyInt ((9 / 100000 : ℝ) * 44100) = 3 :=
      pyInt_eq (by norm_num) (by norm_num) (by norm_num)
    rw [show generate_pluck true zNoise 441 (9 / 100000) 44100 =
        (pluck_math zNoise 441 (9 / 100000) 44100).map some from rfl, h, hp]
    simp [Except.map]
  · have hfl : ⌊(9 / 100000 : ℝ) * 44100⌋ = 3 := by
      rw [Int.floor_eq_iff]
      constructor <;> norm_num
    rw [pyRound, if_neg, round_eq, show (9 / 100000 : ℝ) * 44100 + 1 / 2 = 4469 / 1000 by
      norm_num, Int.floor_eq_iff]
    · constructor <;> norm_num
    · rw [Int.fract, hfl]
      norm_num

/-- Claim C4 (amended): for every positive frequency not exceeding the
sample rate and nonnegative duration, `pluck` returns a buffer of exactly
`int(duration * sample_rate)` samples — truncation toward zero, not
`round(duration * sample_rate)`. -/
theorem generate_pluck_length (noise : ℕ → ℝ) (f d r : ℝ)
    (hf : 0 < f) (hfr : f ≤ r) (hd : 0 ≤ d) :
    ∃ w, generate_pluck true noise f d r = .ok (some w) ∧
      w.length = (pyInt (d * r)).toNat := by
  obtain ⟨w, hw, hlen⟩ := pluck_math_length noise hf hfr hd
  refine ⟨w, ?_, hlen⟩
  rw [show generate_pluck true noise f d r = (pluck_math noise f d r).map some from rfl, hw]
  rfl

/-- Witness for C4 (amended) at `f = 441`, `d = 0.00009`, `r = 44100`. -/
theorem generate_pluck_length_witness :
    (0 : ℝ) < 441 ∧ (441 : ℝ) ≤ 44100 ∧ (0 : ℝ) ≤ 9 / 100000 ∧
    ∃ w, generate_pluck true zNoise 441 (9 / 100000) 44100 = .ok (some w) ∧
      w.length = (pyInt ((9 / 100000 : ℝ) * 44100)).toNat :=
  ⟨by norm_num, by norm_num, by norm_num,
    generate_pluck_length zNoise 441 (9 / 100000) 44100
      (by norm_num) (by norm_num) (by norm_num)⟩

theorem maxAbs_nonneg (l : List ℝ) : 0 ≤ maxAbs l := by
  induction l with
  | nil => exact le_refl 0
  | cons x l ih =>
    show 0 ≤ max |x| (maxAbs l)
    exact le_trans ih (le_max_right _ _)

theorem mem_le_maxAbs {x : ℝ} {l : List ℝ} (hx : x ∈ l) : |x| ≤ maxAbs l := by
  induction l with
  | nil => cases hx
  | cons y l ih =>
    rcases List.mem_cons.mp hx with h | h
    · rw [h]
      exact le_max_left _ _
    · exact le_trans (ih h) (le_max_right _ _)

/-- Reduction of `play_chord` (audio available) when the voice loop
succeeds with a nonempty voice list: the normalized mix is submitted. -/
theorem play_chord_true_ok (noises : ℕ → ℕ → ℝ) (sd : ℝ) (frets : List (Option ℤ))
    (samples : List (List ℝ))
    (hB : buildVoicesAux noises sd (pyStrings.zip frets) 0 = .ok samples)
    (hne : samples.isEmpty = false) :
    play_chord true noises frets sd =
      .ok (some ((mixVoices samples (maxLen samples)).map
        (fun x => x / (maxAbs (mixVoices samples (maxLen samples)) + 0.001) * 0.7))) := by
  unfold play_chord
  rw [hB]
  simp [hne]

theorem play_chord_true_error (noises : ℕ → ℕ → ℝ) (sd : ℝ) (frets : List (Option ℤ))
    (err : PyError)
    (hB : buildVoicesAux noises sd (pyStrings.zip frets) 0 = .error err) :
    play_chord true noises frets sd = .error err := by
  unfold play_chord
  rw [hB]

theorem play_chord_true_empty (noises : ℕ → ℕ → ℝ) (sd : ℝ) (frets : List (Option ℤ))
    (samples : List (List ℝ))
    (hB : buildVoicesAux noises sd (pyStrings.zip frets) 0 = .ok samples)
    (hne : samples.isEmpty = true) :
    play_chord true noises frets sd = .ok none := by
  unfold play_chord
  rw [hB]
  simp [hne]

/-- Claim C6: whenever `play_chord` submits a buffer to the playback sink,
that buffer is the mix normalized by `buffer / (max(|buffer|) + 0.001) * 0.7`,
so every sample has absolute value at most `0.7 + 0.001`. -/
theorem play_chord_peak_bounded (avail : Bool) (noises : ℕ → ℕ → ℝ)
    (frets : List (Option ℤ)) (sd : ℝ) (buf : List ℝ)
    (h : play_chord avail noises frets sd = .ok (some buf)) :
    ∀ x ∈ buf, |x| ≤ 0.7 + 0.001 := by
  cases avail with
  | false =>
    rw [show play_chord false noises frets sd = .ok none from rfl] at h
    simp at h
  | true =>
    cases hB : buildVoicesAux noises sd (pyStrings.zip frets) 0 with
    | error err =>
      rw [play_chord_true_error noises sd frets err hB] at h
      exact Except.noConfusion h
    | ok samples =>
      cases hne : samples.isEmpty with
      | true =>
        rw [play_chord_true_empty noises sd frets samples hB hne] at h
        simp at h
      | false =>
        rw [play_chord_true_ok noises sd frets samples hB hne] at h
        have hbuf : buf = (mixVoices samples (maxLen samples)).map
            (fun x => x / (maxAbs (mixVoices samples (maxLen samples)) + 0.001) * 0.7) := by
          have := Except.ok.inj h
          exact (Option.some.inj this).symm
        subst hbuf
        intro x hx
        obtain ⟨y, hy, rfl⟩ := List.mem_map.mp hx
        set M := maxAbs (mixVoices samples (maxLen samples)) with hM
        have hM0 : 0 ≤ M := maxAbs_nonneg _
        have hMpos : 0 < M + 0.001 := by norm_num; linarith
        have hyM : |y| ≤ M := mem_le_maxAbs hy
        have habs : |y / (M + 0.001) * 0.7| = |y| / (M + 0.001) * 0.7 := by
          rw [abs_mul, abs_div, abs_of_pos hMpos,
            abs_of_pos (by norm_num : (0 : ℝ) < 0.7)]
        rw [habs]
        have hdiv : |y| / (M + 0.001) ≤ 1 := by
          rw [div_le_one hMpos]
          linarith
        nlinarith [abs_nonneg y]

/-- Frets playing only the open low-E string (indices 1-5 muted). -/
def eOnlyFrets : List (Option ℤ) := [some 0, none, none, none, none, none]

theorem get_note_freq_fret_zero (s : GString) :
    get_note_freq s 0 = STRING_FREQS s := by
  rw [get_note_freq, zpow_zero, mul_one]

theorem zipWith_add_replicate_zero (n : ℕ) :
    List.zipWith (· + ·) (List.replicate n (0 : ℝ)) (List.replicate n 0) =
      List.replicate n 0 := by
  induction n with
  | zero => rfl
  | succ n ih => simp [List.replicate_succ, ih]

theorem maxAbs_replicate_zero (n : ℕ) : maxAbs (List.replicate n (0 : ℝ)) = 0 := by
  induction n with
  | zero => rfl
  | succ n ih =>
    rw [List.replicate_succ]
    show max |(0 : ℝ)| (maxAbs (List.replicate n 0)) = 0
    rw [ih, abs_zero, max_self]

/-- Concrete zero-noise run of the voice loop: only the open low-E string,
all-zero noise; one voice of 88200 zero samples and no padding. -/
theorem buildVoices_zero_run :
    buildVoicesAux zNoises (3 / 100) (pyStrings.zip eOnlyFrets) 0 =
      .ok [List.replicate 88200 0] := by
  have hp882 : pyInt ((2 : ℝ) * 44100) = 88200 :=
    pyInt_eq (by norm_num) (by norm_num) (by norm_num)
  have h88 : (88200 : ℤ).toNat = 88200 := by simp
  have hpluck : pluck_math (zNoises 0) (get_note_freq GString.E 0) 2 44100 =
      .ok (List.replicate 88200 0) := by
    rw [get_note_freq_fret_zero, show STRING_FREQS GString.E = 82.41 from rfl,
      show zNoises 0 = zNoise from rfl,
      @pluck_math_zNoise 82.41 2 44100 (by norm_num) (by norm_num) (by norm_num), hp882, h88]
  have hds : pyInt (((0 : ℕ) : ℝ) * (3 / 100) * 44100) = 0 := by
    rw [show (((0 : ℕ) : ℝ) * (3 / 100) * 44100) = 0 by norm_num]
    exact pyInt_eq (by norm_num) (by norm_num) (by norm_num)
  show buildVoicesAux zNoises (3 / 100)
    [(GString.E, some 0), (GString.A, none), (GString.D, none),
      (GString.G, none), (GString.B, none), (GString.e, none)] 0 = _
  rw [buildVoicesAux, hpluck]
  simp only [hds]
  norm_num
  rfl

theorem maxLen_zero_run : maxLen [List.replicate (88200 : ℕ) (0 : ℝ)] = 88200 := by
  unfold maxLen
  rw [List.map_cons, List.map_nil, List.foldr_cons, List.foldr_nil,
    List.length_replicate, Nat.max_zero]

theorem mixVoices_zero_run :
    mixVoices [List.replicate 88200 (0 : ℝ)] 88200 = List.replicate 88200 0 := by
  rw [mixVoices]
  show List.zipWith (· + ·) (List.replicate 88200 (0 : ℝ))
    (padTo 88200 (List.replicate 88200 0)) = List.replicate 88200 0
  rw [padTo]
  simp only [List.length_replicate, Nat.sub_self, List.replicate_zero, List.append_nil]
  exact zipWith_add_replicate_zero 88200

/-- Concrete zero-noise run of `play_chord`: only the open low-E string,
all-zero noise.  The submitted buffer is 88200 zero samples. -/
theorem play_chord_zero_run :
    play_chord true zNoises eOnlyFrets (3 / 100) =
      .ok (some (List.replicate 88200 0)) := by
  rw [play_chord_true_ok zNoises (3 / 100) eOnlyFrets [List.replicate 88200 0]
    buildVoices_zero_run rfl]
  have hzero : (0 : ℝ) / (0 + 0.001) * 0.7 = 0 := by norm_num
  rw [maxLen_zero_run, mixVoices_zero_run, maxAbs_replicate_zero,
    List.map_replicate, hzero]

/-- Witness for C6: the zero-noise open-low-E run submits a buffer, and the
theorem bounds every sample of that buffer by 0.7 + 0.001. -/
theorem play_chord_peak_bounded_witness :
    play_chord true zNoises eOnlyFrets (3 / 100) =
      .ok (some (List.replicate 88200 0)) ∧
    ∀ x ∈ List.replicate (88200 : ℕ) (0 : ℝ), |x| ≤ 0.7 + 0.001 :=
  ⟨play_chord_zero_run,
    play_chord_peak_bounded true zNoises eOnlyFrets (3 / 100)
      (List.replicate 88200 0) play_chord_zero_run⟩

theorem STRING_FREQS_pos (s : GString) : 0 < STRING_FREQS s := by
  cases s <;> norm_num [STRING_FREQS]

theorem one_lt_FRET_R : 1 < FRET_R :=
  (Real.one_lt_rpow_iff_of_pos (by norm_num)).mpr (Or.inl ⟨by norm_num, by norm_num⟩)

theorem FRET_R_pos : 0 < FRET_R :=
  lt_trans one_pos one_lt_FRET_R

theorem FRET_R_zpow_twelve : FRET_R ^ (12 : ℤ) = 2 := by
  rw [FRET_R, ← Real.rpow_intCast ((2 : ℝ) ^ ((1 : ℝ) / 12)) 12,
    ← Real.rpow_mul (by norm_num : (0 : ℝ) ≤ 2)]
  norm_num

/-- Claim C9: for every recognized string, the frequency
`base * FRET_R ** fret` is strictly increasing in the fret number, and
twelve frets up is exactly one octave (in exact real arithmetic,
`frequency(s, 12) = 2 * frequency(s, 0)`, hence within any floating
tolerance). -/
theorem get_note_freq_mono_octave (s : GString) :
    StrictMono (fun fret : ℤ => get_note_freq s fret) ∧
    get_note_freq s 12 = 2 * get_note_freq s 0 := by
  constructor
  · intro a b hab
    simp only [get_note_freq]
    exact mul_lt_mul_of_pos_left
      (zpow_lt_zpow_right₀ one_lt_FRET_R hab) (STRING_FREQS_pos s)
  · rw [get_note_freq, get_note_freq, FRET_R_zpow_twelve, zpow_zero, mul_one]
    ring

theorem get_note_freq_pos (s : GString) (k : ℤ) : 0 < get_note_freq s k :=
  mul_pos (STRING_FREQS_pos s) (zpow_pos FRET_R_pos k)

theorem FRET_R_le_two : FRET_R ≤ 2 := by
  rw [FRET_R]
  calc (2 : ℝ) ^ ((1 : ℝ) / 12) ≤ 2 ^ (1 : ℝ) :=
        Real.rpow_le_rpow_of_exponent_le (by norm_num) (by norm_num)
    _ = 2 := Real.rpow_one 2

/-- Any fret in `0..3` on any string stays far below the 44100 Hz sample
rate. -/
theorem get_note_freq_le (s : GString) (k : ℤ) (h3 : k ≤ 3) :
    get_note_freq s k ≤ 44100 := by
  have hk : FRET_R ^ k ≤ FRET_R ^ (3 : ℤ) :=
    zpow_le_zpow_right₀ one_lt_FRET_R.le h3
  have h3n : FRET_R ^ (3 : ℤ) = FRET_R ^ (3 : ℕ) := by
    norm_cast
  have hpow : FRET_R ^ (3 : ℕ) ≤ 2 ^ (3 : ℕ) :=
    pow_le_pow_left₀ FRET_R_pos.le FRET_R_le_two 3
  have hb : STRING_FREQS s ≤ 330 := by
    cases s <;> norm_num [STRING_FREQS]
  have hfr : FRET_R ^ k ≤ 8 := by
    rw [h3n] at hk
    calc FRET_R ^ k ≤ FRET_R ^ (3 : ℕ) := hk
      _ ≤ 2 ^ (3 : ℕ) := hpow
      _ = 8 := by norm_num
  calc get_note_freq s k = STRING_FREQS s * FRET_R ^ k := rfl
    _ ≤ 330 * 8 := by
        apply mul_le_mul hb hfr (zpow_pos FRET_R_pos k).le (by norm_num)
    _ ≤ 44100 := by norm_num

/-- Every pluck issued by `play_chord` for a fret in `0..3` succeeds with
an 88200-sample voice  (`n_samples = int(2.0 * 44100)`). -/
theorem pluck_ok_fret (noise : ℕ → ℝ) (s : GString) (k : ℤ) (h3 : k ≤ 3) :
    ∃ w, pluck_math noise (get_note_freq s k) 2 44100 = .ok w ∧ w.length = 88200 := by
  obtain ⟨w, hw, hl⟩ := @pluck_math_length noise (get_note_freq s k) 2 44100
    (get_note_freq_pos s k) (get_note_freq_le s k h3) (by norm_num)
  refine ⟨w, hw, ?_⟩
  rw [hl, show pyInt ((2 : ℝ) * 44100) = 88200 from
    pyInt_eq (by norm_num) (by norm_num) (by norm_num)]
  simp

/-- The G-chord fret tuple `(3, 2, 0, 0, 0, 3)` from the chord table
(chords.py line 180): every entry present — `0` is an open string, only a
`None` entry is muted. -/
def gFrets : List (Option ℤ) := [some 3, some 2, some 0, some 0, some 0, some 3]

/-- Running the voice loop on the G chord `(3,2,0,0,0,3)`: all six strings
produce a voice (fret 0 is open, not muted), each 88200 samples long,
padded with `int(i * 0.03 * 44100)` zeros for string index `i`. -/
theorem buildVoices_G_run (noises : ℕ → ℕ → ℝ) :
    ∃ w0 w1 w2 w3 w4 w5 : List ℝ,
      buildVoicesAux noises (3 / 100) (pyStrings.zip gFrets) 0 =
        .ok [w0, List.replicate 1323 0 ++ w1, List.replicate 2646 0 ++ w2,
          List.replicate 3969 0 ++ w3, List.replicate 5292 0 ++ w4,
          List.replicate 6615 0 ++ w5] ∧
      w0.length = 88200 ∧ w1.length = 88200 ∧ w2.length = 88200 ∧
      w3.length = 88200 ∧ w4.length = 88200 ∧ w5.length = 88200 := by
  obtain ⟨w0, hw0, hl0⟩ := pluck_ok_fret (noises 0) GString.E 3 (by norm_num)
  obtain ⟨w1, hw1, hl1⟩ := pluck_ok_fret (noises 1) GString.A 2 (by norm_num)
  obtain ⟨w2, hw2, hl2⟩ := pluck_ok_fret (noises 2) GString.D 0 (by norm_num)
  obtain ⟨w3, hw3, hl3⟩ := pluck_ok_fret (noises 3) GString.G 0 (by norm_num)
  obtain ⟨w4, hw4, hl4⟩ := pluck_ok_fret (noises 4) GString.B 0 (by norm_num)
  obtain ⟨w5, hw5, hl5⟩ := pluck_ok_fret (noises 5) GString.e 3 (by norm_num)
  have hds0 : pyInt (((0 : ℕ) : ℝ) * (3 / 100) * 44100) = 0 :=
    pyInt_eq (by push_cast; norm_num) (by push_cast; norm_num) (by push_cast; norm_num)
  have hds1 : pyInt (((1 : ℕ) : ℝ) * (3 / 100) * 44100) = 1323 :=
    pyInt_eq (by push_cast; norm_num) (by push_cast; norm_num) (by push_cast; norm_num)
  have hds2 : pyInt (((2 : ℕ) : ℝ) * (3 / 100) * 44100) = 2646 :=
    pyInt_eq (by push_cast; norm_num) (by push_cast; norm_num) (by push_cast; norm_num)
  have hds3 : pyInt (((3 : ℕ) : ℝ) * (3 / 100) * 44100) = 3969 :=
    pyInt_eq (by push_cast; norm_num) (by push_cast; norm_num) (by push_cast; norm_num)
  have hds4 : pyInt (((4 : ℕ) : ℝ) * (3 / 100) * 44100) = 5292 :=
    pyInt_eq (by push_cast; norm_num) (by push_cast; norm_num) (by push_cast; norm_num)
  have hds5 : pyInt (((5 : ℕ) : ℝ) * (3 / 100) * 44100) = 6615 :=
    pyInt_eq (by push_cast; norm_num) (by push_cast; norm_num) (by push_cast; norm_num)
  have b5 : buildVoicesAux noises (3 / 100) [(GString.e, some 3)] 5 =
      .ok [List.replicate 6615 0 ++ w5] := by
    rw [buildVoicesAux, hw5]
    simp only [hds5]
    norm_num
    rfl
  have b4 : buildVoicesAux noises (3 / 100)
      [(GString.B, some 0), (GString.e, some 3)] 4 =
      .ok [List.replicate 5292 0 ++ w4, List.replicate 6615 0 ++ w5] := by
    rw [buildVoicesAux, hw4]
    simp only [hds4]
    norm_num
    rw [b5]
    rfl
  have b3 : buildVoicesAux noises (3 / 100)
      [(GString.G, some 0), (GString.B, some 0), (GString.e, some 3)] 3 =
      .ok [List.replicate 3969 0 ++ w3, List.replicate 5292 0 ++ w4,
        List.replicate 6615 0 ++ w5] := by
    rw [buildVoicesAux, hw3]
    simp only [hds3]
    norm_num
    rw [b4]
    rfl
  have b2 : buildVoicesAux noises (3 / 100)
      [(GString.D, some 0), (GString.G, some 0), (GString.B, some 0),
        (GString.e, some 3)] 2 =
      .ok [List.replicate 2646 0 ++ w2, List.replicate 3969 0 ++ w3,
        List.replicate 5292 0 ++ w4, List.replicate 6615 0 ++ w5] := by
    rw [buildVoicesAux, hw2]
    simp only [hds2]
    norm_num
    rw [b3]
    rfl
  have b1 : buildVoicesAux noises (3 / 100)
      [(GString.A, some 2), (GString.D, some 0), (GString.G, some 0),
        (GString.B, some 0), (GString.e, some 3)] 1 =
      .ok [List.replicate 1323 0 ++ w1, List.replicate 2646 0 ++ w2,
        List.replicate 3969 0 ++ w3, List.replicate 5292 0 ++ w4,
        List.replicate 6615 0 ++ w5] := by
    rw [buildVoicesAux, hw1]
    simp only [hds1]
    norm_num
    rw [b2]
    rfl
  refine ⟨w0, w1, w2, w3, w4, w5, ?_, hl0, hl1, hl2, hl3, hl4, hl5⟩
  show buildVoicesAux noises (3 / 100)
    [(GString.E, some 3), (GString.A, some 2), (GString.D, some 0),
      (GString.G, some 0), (GString.B, some 0), (GString.e, some 3)] 0 = _
  rw [buildVoicesAux, hw0]
  simp only [hds0]
  norm_num
  rw [b1]

/-- Claim C2 counterexample: `play_chord` on the G chord `(3,2,0,0,0,3)`
builds six voices, not three — a fret of `0` is an open string and is not
skipped; only `None` entries are muted. -/
theorem play_chord_G_not_three_voices :
    (buildVoicesAux zNoises (3 / 100) (pyStrings.zip gFrets) 0).map List.length =
      .ok 6 ∧
    (buildVoicesAux zNoises (3 / 100) (pyStrings.zip gFrets) 0).map List.length ≠
      .ok 3 := by
  obtain ⟨w0, w1, w2, w3, w4, w5, hB, -, -, -, -, -, -⟩ := buildVoices_G_run zNoises
  have h6 : (buildVoicesAux zNoises (3 / 100) (pyStrings.zip gFrets) 0).map List.length =
      .ok 6 := by
    rw [hB]
    rfl
  refine ⟨h6, ?_⟩
  rw [h6]
  intro hcon
  exact absurd (Except.ok.inj hcon) (by norm_num)

theorem FRET_R_zpow_three : FRET_R ^ (3 : ℤ) = (2 : ℝ) ^ ((1 : ℝ) / 4) := by
  rw [FRET_R, ← Real.rpow_intCast ((2 : ℝ) ^ ((1 : ℝ) / 12)) 3,
    ← Real.rpow_mul (by norm_num : (0 : ℝ) ≤ 2)]
  norm_num

theorem FRET_R_zpow_two : FRET_R ^ (2 : ℤ) = (2 : ℝ) ^ ((1 : ℝ) / 6) := by
  rw [FRET_R, ← Real.rpow_intCast ((2 : ℝ) ^ ((1 : ℝ) / 12)) 2,
    ← Real.rpow_mul (by norm_num : (0 : ℝ) ≤ 2)]
  norm_num

theorem rpow_quarter_bounds :
    1.1892 < (2 : ℝ) ^ ((1 : ℝ) / 4) ∧ (2 : ℝ) ^ ((1 : ℝ) / 4) < 1.1893 := by
  have hpos : (0 : ℝ) < (2 : ℝ) ^ ((1 : ℝ) / 4) := Real.rpow_pos_of_pos (by norm_num) _
  have h4 : ((2 : ℝ) ^ ((1 : ℝ) / 4)) ^ (4 : ℕ) = 2 := by
    rw [← Real.rpow_natCast ((2 : ℝ) ^ ((1 : ℝ) / 4)) 4,
      ← Real.rpow_mul (by norm_num : (0 : ℝ) ≤ 2)]
    norm_num
  constructor
  · by_contra hle
    push_neg at hle
    have h := pow_le_pow_left₀ hpos.le hle 4
    rw [h4] at h
    norm_num at h
  · by_contra hle
    push_neg at hle
    have h := pow_le_pow_left₀ (by norm_num : (0 : ℝ) ≤ 1.1893) hle 4
    rw [h4] at h
    norm_num at h

theorem rpow_sixth_bounds :
    1.1224 < (2 : ℝ) ^ ((1 : ℝ) / 6) ∧ (2 : ℝ) ^ ((1 : ℝ) / 6) < 1.1225 := by
  have hpos : (0 : ℝ) < (2 : ℝ) ^ ((1 : ℝ) / 6) := Real.rpow_pos_of_pos (by norm_num) _
  have h6 : ((2 : ℝ) ^ ((1 : ℝ) / 6)) ^ (6 : ℕ) = 2 := by
    rw [← Real.rpow_natCast ((2 : ℝ) ^ ((1 : ℝ) / 6)) 6,
      ← Real.rpow_mul (by norm_num : (0 : ℝ) ≤ 2)]
    norm_num
  constructor
  · by_contra hle
    push_neg at hle
    have h := pow_le_pow_left₀ hpos.le hle 6
    rw [h6] at h
    norm_num at h
  · by_contra hle
    push_neg at hle
    have h := pow_le_pow_left₀ (by norm_num : (0 : ℝ) ≤ 1.1225) hle 6
    rw [h6] at h
    norm_num at h

theorem freq_E3_approx : |get_note_freq GString.E 3 - 98| < 1 / 20 := by
  obtain ⟨hl, hu⟩ := rpow_quarter_bounds
  rw [get_note_freq, show STRING_FREQS GString.E = 82.41 from rfl,
    FRET_R_zpow_three, abs_lt]
  constructor <;> nlinarith

theorem freq_A2_approx : |get_note_freq GString.A 2 - 123.5| < 1 / 20 := by
  obtain ⟨hl, hu⟩ := rpow_sixth_bounds
  rw [get_note_freq, show STRING_FREQS GString.A = 110 by norm_num [STRING_FREQS],
    FRET_R_zpow_two, abs_lt]
  constructor <;> nlinarith

theorem freq_e3_approx : |get_note_freq GString.e 3 - 392| < 1 / 20 := by
  obtain ⟨hl, hu⟩ := rpow_quarter_bounds
  rw [get_note_freq, show STRING_FREQS GString.e = 329.63 from rfl,
    FRET_R_zpow_three, abs_lt]
  constructor <;> nlinarith

/-- Claim C2 (amended): `play_chord` on chord G with frets `(3,2,0,0,0,3)`
produces SIX voices, one per string — a fret of 0 is an open string, not a
muted one, so the D, G and B strings sound too (at 146.83, 196.0 and
246.94 Hz).  The E-string voice is at ≈ 98.0 Hz with offset 0, the
A-string voice at ≈ 123.5 Hz with offset `int(1 * 0.03 * 44100) = 1323`,
and the e-string voice at ≈ 392.0 Hz with offset
`int(5 * 0.03 * 44100) = 6615`; in general the voice for string index `i`
is prepended with `int(i * strum_delay * sample_rate)` samples of silence
in fixed index order. -/
theorem play_chord_G_six_voices (noises : ℕ → ℕ → ℝ) :
    (∃ w0 w1 w2 w3 w4 w5 : List ℝ,
      buildVoicesAux noises (3 / 100) (pyStrings.zip gFrets) 0 =
        .ok [w0, List.replicate 1323 0 ++ w1, List.replicate 2646 0 ++ w2,
          List.replicate 3969 0 ++ w3, List.replicate 5292 0 ++ w4,
          List.replicate 6615 0 ++ w5] ∧
      w0.length = 88200 ∧ w1.length = 88200 ∧ w2.length = 88200 ∧
      w3.length = 88200 ∧ w4.length = 88200 ∧ w5.length = 88200) ∧
    |get_note_freq GString.E 3 - 98| < 1 / 20 ∧
    |get_note_freq GString.A 2 - 123.5| < 1 / 20 ∧
    |get_note_freq GString.e 3 - 392| < 1 / 20 ∧
    get_note_freq GString.D 0 = 146.83 ∧
    get_note_freq GString.G 0 = 196 ∧
    get_note_freq GString.B 0 = 246.94 :=
  ⟨buildVoices_G_run noises, freq_E3_approx, freq_A2_approx, freq_e3_approx,
    by rw [get_note_freq_fret_zero]; norm_num [STRING_FREQS],
    by rw [get_note_freq_fret_zero]; norm_num [STRING_FREQS],
    by rw [get_note_freq_fret_zero]; norm_num [STRING_FREQS]⟩
